import Mathlib

/-!
Verification development for the trading strategy in
src/MeanReversionSMAModification.py.

The strategy composes platform-supplied pipeline factors into a composite
score, stages the score mapping in a before-open hook, and builds a weekly
portfolio-optimization request.  Numeric cells of the pipeline are modelled
by an extended-rational type with signed infinities and a not-a-number
element, mirroring the double arithmetic the platform uses; the platform
primitives (moving averages, returns, winsorize, z-score, percentile bands,
the optimizer objective and constraints) are modelled from the spec, since
the platform runtime is an external collaborator whose code is not part of
this repository.
-/

/-- Floor of a rational number, as an integer. -/
def ratFloor (q : ℚ) : ℤ := Int.fdiv q.num (q.den : ℤ)

/-- Modelled from the spec: the square root used inside the z-score
standard deviation.  Exact whenever the argument is the square of a
rational number (as in every concrete instantiation below). -/
def ratSqrt (q : ℚ) : ℚ := (Nat.sqrt q.num.toNat : ℚ) / (Nat.sqrt q.den : ℚ)

/-- A pipeline cell value: a finite rational, a signed infinity, or
not-a-number.  This mirrors the double values flowing through the
platform pipeline. -/
inductive PFloat where
  | fin (q : ℚ)
  | pinf
  | ninf
  | nan
deriving DecidableEq

/-- Negation on pipeline values. -/
def PFloat.neg : PFloat → PFloat
  | fin q => fin (-q)
  | pinf => ninf
  | ninf => pinf
  | nan => nan

/-- Addition on pipeline values, with the usual double semantics:
not-a-number absorbs, and opposite infinities give not-a-number. -/
def PFloat.add : PFloat → PFloat → PFloat
  | nan, _ => nan
  | _, nan => nan
  | pinf, ninf => nan
  | ninf, pinf => nan
  | pinf, _ => pinf
  | ninf, _ => ninf
  | fin _, pinf => pinf
  | fin _, ninf => ninf
  | fin a, fin b => fin (a + b)

/-- Subtraction on pipeline values. -/
def PFloat.sub (a b : PFloat) : PFloat := PFloat.add a (PFloat.neg b)

/-- Multiplication on pipeline values: not-a-number absorbs, an infinity
times zero is not-a-number, signs multiply. -/
def PFloat.mul : PFloat → PFloat → PFloat
  | nan, _ => nan
  | _, nan => nan
  | pinf, pinf => pinf
  | pinf, ninf => ninf
  | ninf, pinf => ninf
  | ninf, ninf => pinf
  | pinf, fin b => if b = 0 then nan else if b < 0 then ninf else pinf
  | fin a, pinf => if a = 0 then nan else if a < 0 then ninf else pinf
  | ninf, fin b => if b = 0 then nan else if b < 0 then pinf else ninf
  | fin a, ninf => if a = 0 then nan else if a < 0 then pinf else ninf
  | fin a, fin b => fin (a * b)

/-- Division on pipeline values: division of a nonzero finite value by
zero gives a signed infinity, zero by zero gives not-a-number, an infinity
divided by an infinity gives not-a-number. -/
def PFloat.div : PFloat → PFloat → PFloat
  | nan, _ => nan
  | _, nan => nan
  | pinf, pinf => nan
  | pinf, ninf => nan
  | ninf, pinf => nan
  | ninf, ninf => nan
  | pinf, fin b => if b < 0 then ninf else pinf
  | ninf, fin b => if b < 0 then pinf else ninf
  | fin _, pinf => fin 0
  | fin _, ninf => fin 0
  | fin a, fin b =>
      if b = 0 then (if a = 0 then nan else if a < 0 then ninf else pinf)
      else fin (a / b)

/-- Square root on pipeline values (used by the z-score denominator). -/
def PFloat.sqrt : PFloat → PFloat
  | fin q => if q < 0 then nan else fin (ratSqrt q)
  | pinf => pinf
  | ninf => nan
  | nan => nan

/-- Strict comparison on pipeline values; any comparison involving
not-a-number is false. -/
def PFloat.ltb : PFloat → PFloat → Bool
  | nan, _ => false
  | _, nan => false
  | _, ninf => false
  | ninf, _ => true
  | pinf, _ => false
  | _, pinf => true
  | fin a, fin b => decide (a < b)

/-- Non-strict comparison on pipeline values; any comparison involving
not-a-number is false. -/
def PFloat.leb : PFloat → PFloat → Bool
  | nan, _ => false
  | _, nan => false
  | ninf, _ => true
  | _, ninf => false
  | _, pinf => true
  | pinf, _ => false
  | fin a, fin b => decide (a ≤ b)

/-- Sum of a list of pipeline values. -/
def pfsum (xs : List PFloat) : PFloat := xs.foldr PFloat.add (PFloat.fin 0)

/-- Insertion step of the sort used before taking percentiles. -/
def insertPF (x : PFloat) : List PFloat → List PFloat
  | [] => [x]
  | y :: ys => if PFloat.leb x y then x :: y :: ys else y :: insertPF x ys

/-- Sort a list of pipeline values (used on lists without not-a-number). -/
def sortPF (xs : List PFloat) : List PFloat := xs.foldr insertPF []

/-- The values of a cross-sectional column over the universe, with the
not-a-number entries dropped (as the platform nan-aware reductions do). -/
def nonNanVals (col : ℕ → PFloat) (univ : List ℕ) : List PFloat :=
  (univ.map col).filter (fun v => !decide (v = PFloat.nan))

/-- Modelled from the spec: the percentile of a sorted list of values,
with linear interpolation between adjacent order statistics, the
convention the spec scenario for the quartile bands pins down.  The
percentile rank is given as a fraction in the unit interval. -/
def percLin (sorted : List PFloat) (p : ℚ) : PFloat :=
  if sorted.isEmpty then PFloat.nan
  else
    let n : ℕ := sorted.length
    let h : ℚ := p * ((n : ℚ) - 1)
    let i : ℕ := (ratFloor h).toNat
    let g : ℚ := h - ((ratFloor h : ℤ) : ℚ)
    if g = 0 then sorted.getD i PFloat.nan
    else
      PFloat.add (sorted.getD i PFloat.nan)
        (PFloat.mul (PFloat.sub (sorted.getD (i + 1) PFloat.nan) (sorted.getD i PFloat.nan))
          (PFloat.fin g))

/-- Modelled from the spec: winsorize a cross-sectional column over the
universe, clipping values below the minimum percentile and above the
maximum percentile to those percentile values.  The percentile arguments
are fractions, matching the call in the source. -/
def winsorizeCol (col : ℕ → PFloat) (univ : List ℕ) (minP maxP : ℚ) (s : ℕ) : PFloat :=
  let sorted := sortPF (nonNanVals col univ)
  let lo := percLin sorted minP
  let hi := percLin sorted maxP
  let v := col s
  if PFloat.ltb v lo then lo else if PFloat.ltb hi v then hi else v

/-- Modelled from the spec: the percentile-band filter, keeping the
securities whose column value lies between the two given percentiles of
the distribution over the universe, bounds inclusive.  The percentile
arguments are on the 0 to 100 scale, matching the call in the source. -/
def percentileBetween (col : ℕ → PFloat) (univ : List ℕ) (minP maxP : ℚ) (s : ℕ) : Bool :=
  let sorted := sortPF (nonNanVals col univ)
  let lo := percLin sorted (minP / 100)
  let hi := percLin sorted (maxP / 100)
  PFloat.leb lo (col s) && PFloat.leb (col s) hi

/-- Modelled from the spec: the cross-sectional z-score of a column over
the universe, value minus distribution mean over distribution standard
deviation, with not-a-number entries excluded from the mean and standard
deviation. -/
def zscoreCol (col : ℕ → PFloat) (univ : List ℕ) (s : ℕ) : PFloat :=
  let vals := nonNanVals col univ
  let n := vals.length
  let m := PFloat.div (pfsum vals) (PFloat.fin n)
  let varr :=
    PFloat.div (pfsum (vals.map (fun v => PFloat.mul (PFloat.sub v m) (PFloat.sub v m))))
      (PFloat.fin n)
  PFloat.div (PFloat.sub (col s) m) (PFloat.sqrt varr)

/-- Modelled from the spec: a simple moving average over the given window
of a per-security series (most recent observation first); not-a-number
when the series is shorter than the window. -/
def sma (w : ℕ) (xs : List PFloat) : PFloat :=
  if xs.length < w then PFloat.nan
  else PFloat.div (pfsum (xs.take w)) (PFloat.fin w)

/-- Modelled from the spec: the trailing percent change of a series over
the given window, latest value minus the value at the window start over
the value at the window start. -/
def returnsFactor (w : ℕ) (xs : List PFloat) : PFloat :=
  if xs.length < w then PFloat.nan
  else
    PFloat.div (PFloat.sub (xs.getD 0 PFloat.nan) (xs.getD (w - 1) PFloat.nan))
      (xs.getD (w - 1) PFloat.nan)

/-- Maximum leverage of the algorithm, from the source. -/
def MAX_GROSS_EXPOSURE : ℚ := 1

/-- Maximum fraction of the portfolio invested in any one security, from
the source (0.025). -/
def MAX_POSITION_CONCENTRATION : ℚ := 1 / 40

/-- Lookback window length of the Returns factor, from the source. -/
def RETURNS_LOOKBACK_DAYS : ℕ := 7

/-- The raw per-security data series feeding the pipeline, most recent
observation first. -/
structure SecData where
  close : List PFloat
  bull_minus_bear : List PFloat
  total_scanned_messages : List PFloat

/-- One evaluation of the pipeline inputs: the tradable universe and the
raw data series of each security. -/
structure Inputs where
  univ : List ℕ
  data : ℕ → SecData

/-- The 50-period simple moving average of the close price. -/
def mean_close_50 (inp : Inputs) (s : ℕ) : PFloat := sma 50 (inp.data s).close

/-- The 200-period simple moving average of the close price. -/
def mean_close_200 (inp : Inputs) (s : ℕ) : PFloat := sma 200 (inp.data s).close

/-- The trend ratio of the source, mean_close_200 over mean_close_50. -/
def mean_average_multiplier (inp : Inputs) (s : ℕ) : PFloat :=
  PFloat.div (mean_close_200 inp s) (mean_close_50 inp s)

/-- The lookback-window average of the bull minus bear sentiment. -/
def bull_m_bear (inp : Inputs) (s : ℕ) : PFloat :=
  sma RETURNS_LOOKBACK_DAYS (inp.data s).bull_minus_bear

/-- The lookback-window average of the total scanned message count. -/
def total_messages (inp : Inputs) (s : ℕ) : PFloat :=
  sma RETURNS_LOOKBACK_DAYS (inp.data s).total_scanned_messages

/-- The sentiment ratio of the source, total_messages over bull_m_bear. -/
def sentiment_score (inp : Inputs) (s : ℕ) : PFloat :=
  PFloat.div (total_messages inp s) (bull_m_bear inp s)

/-- The sentiment ratio winsorized over the universe at the percentiles
given in the source. -/
def sentiment_score_winsorized (inp : Inputs) (s : ℕ) : PFloat :=
  winsorizeCol (sentiment_score inp) inp.univ (1 / 100) (95 / 100) s

/-- The trailing return over the lookback window. -/
def recent_returns (inp : Inputs) (s : ℕ) : PFloat :=
  returnsFactor RETURNS_LOOKBACK_DAYS (inp.data s).close

/-- The cross-sectional z-score of the trailing return. -/
def recent_returns_zscore (inp : Inputs) (s : ℕ) : PFloat :=
  zscoreCol (recent_returns inp) inp.univ s

/-- The bottom quartile band of the return z-score distribution. -/
def low_returns (inp : Inputs) (s : ℕ) : Bool :=
  percentileBetween (recent_returns_zscore inp) inp.univ 0 25 s

/-- The top quartile band of the return z-score distribution. -/
def high_returns (inp : Inputs) (s : ℕ) : Bool :=
  percentileBetween (recent_returns_zscore inp) inp.univ 75 100 s

/-- The screen of the pipeline, low or high returns intersected with the
universe. -/
def securities_to_trade (inp : Inputs) (s : ℕ) : Bool :=
  (low_returns inp s || high_returns inp s) && inp.univ.contains s

/-- The composite score of the source, winsorized sentiment ratio times
return z-score times trend ratio. -/
def total_score (inp : Inputs) (s : ℕ) : PFloat :=
  PFloat.mul (PFloat.mul (sentiment_score_winsorized inp s) (recent_returns_zscore inp s))
    (mean_average_multiplier inp s)

/-- The pipeline output: the total_score column, restricted to the
securities passing the screen. -/
def pipelineOutput (inp : Inputs) : List (ℕ × PFloat) :=
  (inp.univ.filter (securities_to_trade inp)).map (fun s => (s, total_score inp s))

/-- The fillna substitution of the before-open hook: not-a-number cells
become one. -/
def fillna1 (v : PFloat) : PFloat := if v = PFloat.nan then PFloat.fin 1 else v

/-- The replace substitution of the before-open hook: infinite cells
become one. -/
def replaceInf1 (v : PFloat) : PFloat :=
  if v = PFloat.pinf ∨ v = PFloat.ninf then PFloat.fin 1 else v

/-- The algorithm context: the fetched pipeline output and the staged
composite-score mapping. -/
structure Context where
  output : List (ℕ × PFloat)
  total_score : List (ℕ × PFloat)

/-- The before-open hook of the source: fetch the pipeline output, apply
fillna with one, then stage the total_score column with infinities
replaced by one. -/
def before_trading_start (ctx : Context) (pipeOut : List (ℕ × PFloat)) : Context :=
  let out := pipeOut.map (fun p => (p.1, fillna1 p.2))
  { output := out, total_score := out.map (fun p => (p.1, replaceInf1 p.2)) }

/-- One trading period: run the pipeline on the inputs and stage its
output through the before-open hook. -/
def tradingPeriod (ctx : Context) (inp : Inputs) : Context :=
  before_trading_start ctx (pipelineOutput inp)

/-- Modelled from the spec: a portfolio constraint of the optimization
request. -/
inductive Constraint where
  | maxGrossExposure (limit : ℚ)
  | positionConcentration (minWeight maxWeight : ℚ)
  | dollarNeutral
deriving DecidableEq

/-- Modelled from the spec: the objective of the optimization request,
maximize the sum over positions of weight times the given alpha value. -/
inductive Objective where
  | maximizeAlpha (alphas : List (ℕ × PFloat))
deriving DecidableEq

/-- The optimization request handed to the external optimizer. -/
structure OptRequest where
  objective : Objective
  constraints : List Constraint
deriving DecidableEq

/-- The rebalance hook of the source: objective MaximizeAlpha of the
negated staged scores, and the three constraints with the configured
constants. -/
def rebalance (ctx : Context) : OptRequest :=
  { objective := Objective.maximizeAlpha (ctx.total_score.map (fun p => (p.1, PFloat.neg p.2)))
    constraints :=
      [ Constraint.maxGrossExposure MAX_GROSS_EXPOSURE,
        Constraint.positionConcentration (-MAX_POSITION_CONCENTRATION) MAX_POSITION_CONCENTRATION,
        Constraint.dollarNeutral ] }

/-- The gross exposure of a weight mapping over the held securities. -/
def grossExposure (w : ℕ → ℚ) (secs : List ℕ) : ℚ := (secs.map (fun s => |w s|)).sum

/-- The long exposure of a weight mapping, the sum of positive weights. -/
def longExposure (w : ℕ → ℚ) (secs : List ℕ) : ℚ := (secs.map (fun s => max (w s) 0)).sum

/-- The short exposure of a weight mapping, the sum of absolute values of
negative weights. -/
def shortExposure (w : ℕ → ℚ) (secs : List ℕ) : ℚ := (secs.map (fun s => |min (w s) 0|)).sum

/-- Modelled from the spec: what it means for a solved weight mapping to
satisfy one constraint. -/
def Constraint.sat (w : ℕ → ℚ) (secs : List ℕ) : Constraint → Prop
  | Constraint.maxGrossExposure limit => grossExposure w secs ≤ limit
  | Constraint.positionConcentration lo hi => ∀ s ∈ secs, lo ≤ w s ∧ w s ≤ hi
  | Constraint.dollarNeutral => longExposure w secs = shortExposure w secs

/-- Modelled from the spec: the value of the submitted objective at a
weight mapping, the sum over positions of weight times alpha. -/
def Objective.value : Objective → (ℕ → ℚ) → PFloat
  | Objective.maximizeAlpha alphas, w =>
      pfsum (alphas.map (fun p => PFloat.mul (PFloat.fin (w p.1)) p.2))

/-- A close series for the examples: a fresh latest close followed by a
flat history at ten. -/
def exClose (c0 : ℚ) : List PFloat := PFloat.fin c0 :: List.replicate 199 (PFloat.fin 10)

/-- Example inputs with four securities in which security zero has no
bull minus bear data at all (a missing raw factor). -/
def EX3 : Inputs :=
  { univ := [0, 1, 2, 3]
    data := fun s =>
      if s = 0 then
        { close := exClose 80, bull_minus_bear := [],
          total_scanned_messages := List.replicate 7 (PFloat.fin 100) }
      else if s = 1 then
        { close := exClose 0, bull_minus_bear := List.replicate 7 (PFloat.fin 2),
          total_scanned_messages := List.replicate 7 (PFloat.fin 10) }
      else if s = 2 then
        { close := exClose 20, bull_minus_bear := List.replicate 7 (PFloat.fin 4),
          total_scanned_messages := List.replicate 7 (PFloat.fin 20) }
      else
        { close := exClose (-60), bull_minus_bear := List.replicate 7 (PFloat.fin 2),
          total_scanned_messages := List.replicate 7 (PFloat.fin 30) } }

/-- Example inputs with four securities in which security zero has a bull
minus bear average of exactly zero. -/
def EX4 : Inputs :=
  { univ := [0, 1, 2, 3]
    data := fun s =>
      if s = 0 then
        { close := exClose 80, bull_minus_bear := List.replicate 7 (PFloat.fin 0),
          total_scanned_messages := List.replicate 7 (PFloat.fin 50) }
      else if s = 1 then
        { close := exClose 0, bull_minus_bear := List.replicate 7 (PFloat.fin 2),
          total_scanned_messages := List.replicate 7 (PFloat.fin 10) }
      else if s = 2 then
        { close := exClose 20, bull_minus_bear := List.replicate 7 (PFloat.fin 4),
          total_scanned_messages := List.replicate 7 (PFloat.fin 20) }
      else
        { close := exClose (-60), bull_minus_bear := List.replicate 7 (PFloat.fin 2),
          total_scanned_messages := List.replicate 7 (PFloat.fin 30) } }

/-- The four-security universe of the spec scenario. -/
def univ4 : List ℕ := [0, 1, 2, 3]

/-- The z-score column of the spec scenario for the quartile bands. -/
def zScenario : ℕ → PFloat := fun s =>
  if s = 0 then PFloat.fin (-2)
  else if s = 1 then PFloat.fin (-1 / 2)
  else if s = 2 then PFloat.fin (1 / 2)
  else PFloat.fin 2

/-- An empty starting context for concrete instantiations. -/
def ctx0 : Context := { output := [], total_score := [] }


set_option maxRecDepth 4000

/-- Multiplication by not-a-number on the right absorbs. -/
theorem PFloat.mul_nan (x : PFloat) : PFloat.mul x PFloat.nan = PFloat.nan := by
  cases x <;> rfl

/-- Multiplication by not-a-number on the left absorbs. -/
theorem PFloat.nan_mul (x : PFloat) : PFloat.mul PFloat.nan x = PFloat.nan := by
  cases x <;> rfl

/-- Division by not-a-number absorbs. -/
theorem PFloat.div_nan (x : PFloat) : PFloat.div x PFloat.nan = PFloat.nan := by
  cases x <;> rfl

/-- Division of not-a-number absorbs. -/
theorem PFloat.nan_div (x : PFloat) : PFloat.div PFloat.nan x = PFloat.nan := by
  cases x <;> rfl

/-- Subtraction of not-a-number from a value absorbs. -/
theorem PFloat.sub_nan (x : PFloat) : PFloat.sub x PFloat.nan = PFloat.nan := by
  cases x <;> rfl

/-- Subtraction of a value from not-a-number absorbs. -/
theorem PFloat.nan_sub (x : PFloat) : PFloat.sub PFloat.nan x = PFloat.nan := by
  cases x <;> rfl

/-- Not-a-number is below nothing in the strict comparison. -/
theorem PFloat.ltb_nan_left (x : PFloat) : PFloat.ltb PFloat.nan x = false := by
  cases x <;> rfl

/-- Nothing is below not-a-number in the strict comparison. -/
theorem PFloat.ltb_nan_right (x : PFloat) : PFloat.ltb x PFloat.nan = false := by
  cases x <;> rfl

/-- Dividing any value by finite zero yields an infinity or not-a-number,
never a finite value. -/
theorem PFloat.div_fin_zero (x : PFloat) :
    PFloat.div x (PFloat.fin 0) = PFloat.pinf ∨ PFloat.div x (PFloat.fin 0) = PFloat.ninf
      ∨ PFloat.div x (PFloat.fin 0) = PFloat.nan := by
  cases x with
  | fin a => simp only [PFloat.div]; split_ifs <;> simp
  | pinf => norm_num [PFloat.div]
  | ninf => norm_num [PFloat.div]
  | nan => simp [PFloat.div]

/-- The before-open substitutions always produce a finite value. -/
theorem replace_fill_fin (v : PFloat) : ∃ q : ℚ, replaceInf1 (fillna1 v) = PFloat.fin q := by
  cases v with
  | fin q => exact ⟨q, rfl⟩
  | pinf => exact ⟨1, rfl⟩
  | ninf => exact ⟨1, rfl⟩
  | nan => exact ⟨1, rfl⟩

/-- Winsorizing a cell that is not-a-number leaves it not-a-number. -/
theorem winsorizeCol_nan (col : ℕ → PFloat) (univ : List ℕ) (a b : ℚ) (s : ℕ)
    (h : col s = PFloat.nan) : winsorizeCol col univ a b s = PFloat.nan := by
  simp [winsorizeCol, h, PFloat.ltb_nan_left, PFloat.ltb_nan_right]

/-- The z-score of a cell that is not-a-number is not-a-number. -/
theorem zscoreCol_nan (col : ℕ → PFloat) (univ : List ℕ) (s : ℕ)
    (h : col s = PFloat.nan) : zscoreCol col univ s = PFloat.nan := by
  simp [zscoreCol, h, PFloat.nan_sub, PFloat.nan_div]

/-- Any entry of the staged mapping is the corresponding composite score
passed through the fillna and replace substitutions, in that order. -/
theorem staged_mem (ctx : Context) (inp : Inputs) (s : ℕ) (v : PFloat)
    (hv : (s, v) ∈ (tradingPeriod ctx inp).total_score) :
    v = replaceInf1 (fillna1 (total_score inp s)) := by
  simp only [tradingPeriod, before_trading_start, pipelineOutput, List.map_map,
    Function.comp, List.mem_map] at hv
  obtain ⟨a, ha, h⟩ := hv
  injection h with h1 h2
  subst h1
  exact h2.symm

/-- The universe of the first example. -/
theorem EX3_univ : EX3.univ = [0, 1, 2, 3] := rfl

/-- In the first example the bull minus bear average of security zero is
missing. -/
theorem ex3_bmb0 : bull_m_bear EX3 0 = PFloat.nan := by with_unfolding_all decide

/-- Screen value of security zero in the first example. -/
theorem ex3_stt0 : securities_to_trade EX3 0 = true := by with_unfolding_all decide

/-- Screen value of security one in the first example. -/
theorem ex3_stt1 : securities_to_trade EX3 1 = false := by with_unfolding_all decide

/-- Screen value of security two in the first example. -/
theorem ex3_stt2 : securities_to_trade EX3 2 = false := by with_unfolding_all decide

/-- Screen value of security three in the first example. -/
theorem ex3_stt3 : securities_to_trade EX3 3 = true := by with_unfolding_all decide

/-- Return z-score of security zero in the first example. -/
theorem ex3_zs0 : recent_returns_zscore EX3 0 = PFloat.fin (7 / 5) := by
  with_unfolding_all decide

/-- Return z-score of security three in the first example. -/
theorem ex3_zs3 : recent_returns_zscore EX3 3 = PFloat.fin (-7 / 5) := by
  with_unfolding_all decide

/-- Trend ratio of security zero in the first example. -/
theorem ex3_tr0 : mean_average_multiplier EX3 0 = PFloat.fin (69 / 76) := by
  with_unfolding_all decide

/-- Trend ratio of security three in the first example. -/
theorem ex3_tr3 : mean_average_multiplier EX3 3 = PFloat.fin (193 / 172) := by
  with_unfolding_all decide

/-- Winsorized sentiment ratio of security three in the first example. -/
theorem ex3_ws3 : sentiment_score_winsorized EX3 3 = PFloat.fin 14 := by
  with_unfolding_all decide

/-- Composite score of security zero in the first example: the missing
sentiment factor propagates as not-a-number. -/
theorem ex3_total0 : total_score EX3 0 = PFloat.nan := by with_unfolding_all decide

/-- Composite score of security three in the first example. -/
theorem ex3_total3 : total_score EX3 3 = PFloat.fin (-9457 / 430) := by
  rw [total_score, ex3_ws3, ex3_zs3, ex3_tr3]
  show PFloat.fin (14 * (-7 / 5) * (193 / 172)) = PFloat.fin (-9457 / 430)
  norm_num

/-- Pipeline output of the first example. -/
theorem ex3_pipe : pipelineOutput EX3 = [(0, PFloat.nan), (3, PFloat.fin (-9457 / 430))] := by
  simp [pipelineOutput, EX3_univ, List.filter_cons, ex3_stt0, ex3_stt1, ex3_stt2, ex3_stt3,
    ex3_total0, ex3_total3]

/-- Staged mapping of the first example: the missing-factor security is
staged with score one. -/
theorem ex3_staged : (tradingPeriod ctx0 EX3).total_score =
    [(0, PFloat.fin 1), (3, PFloat.fin (-9457 / 430))] := by
  simp [tradingPeriod, before_trading_start, ex3_pipe, fillna1, replaceInf1]

/-- The universe of the second example. -/
theorem EX4_univ : EX4.univ = [0, 1, 2, 3] := rfl

/-- In the second example the bull minus bear average of security zero is
exactly zero. -/
theorem ex4_bmb0 : bull_m_bear EX4 0 = PFloat.fin 0 := by with_unfolding_all decide

/-- The sentiment ratio of security zero in the second example is plus
infinity. -/
theorem ex4_sent0 : sentiment_score EX4 0 = PFloat.pinf := by with_unfolding_all decide

/-- The winsorized sentiment ratio of security zero in the second example
is still plus infinity. -/
theorem ex4_ws0 : sentiment_score_winsorized EX4 0 = PFloat.pinf := by
  with_unfolding_all decide

/-- Winsorized sentiment ratio of security three in the second example. -/
theorem ex4_ws3 : sentiment_score_winsorized EX4 3 = PFloat.fin 15 := by
  with_unfolding_all decide

/-- Return z-score of security zero in the second example. -/
theorem ex4_zs0 : recent_returns_zscore EX4 0 = PFloat.fin (7 / 5) := by
  with_unfolding_all decide

/-- Return z-score of security three in the second example. -/
theorem ex4_zs3 : recent_returns_zscore EX4 3 = PFloat.fin (-7 / 5) := by
  with_unfolding_all decide

/-- Trend ratio of security zero in the second example. -/
theorem ex4_tr0 : mean_average_multiplier EX4 0 = PFloat.fin (69 / 76) := by
  with_unfolding_all decide

/-- Trend ratio of security three in the second example. -/
theorem ex4_tr3 : mean_average_multiplier EX4 3 = PFloat.fin (193 / 172) := by
  with_unfolding_all decide

/-- Screen value of security zero in the second example. -/
theorem ex4_stt0 : securities_to_trade EX4 0 = true := by with_unfolding_all decide

/-- Screen value of security one in the second example. -/
theorem ex4_stt1 : securities_to_trade EX4 1 = false := by with_unfolding_all decide

/-- Screen value of security two in the second example. -/
theorem ex4_stt2 : securities_to_trade EX4 2 = false := by with_unfolding_all decide

/-- Screen value of security three in the second example. -/
theorem ex4_stt3 : securities_to_trade EX4 3 = true := by with_unfolding_all decide

/-- Composite score of security zero in the second example: the infinite
sentiment ratio propagates to an infinite composite score. -/
theorem ex4_total0 : total_score EX4 0 = PFloat.pinf := by
  rw [total_score, ex4_ws0, ex4_zs0, ex4_tr0]
  with_unfolding_all decide

/-- Composite score of security three in the second example. -/
theorem ex4_total3 : total_score EX4 3 = PFloat.fin (-4053 / 172) := by
  rw [total_score, ex4_ws3, ex4_zs3, ex4_tr3]
  show PFloat.fin (15 * (-7 / 5) * (193 / 172)) = PFloat.fin (-4053 / 172)
  norm_num

/-- Pipeline output of the second example. -/
theorem ex4_pipe : pipelineOutput EX4 = [(0, PFloat.pinf), (3, PFloat.fin (-4053 / 172))] := by
  simp [pipelineOutput, EX4_univ, List.filter_cons, ex4_stt0, ex4_stt1, ex4_stt2, ex4_stt3,
    ex4_total0, ex4_total3]

/-- Staged mapping of the second example: the infinite composite score is
replaced by one. -/
theorem ex4_staged : (tradingPeriod ctx0 EX4).total_score =
    [(0, PFloat.fin 1), (3, PFloat.fin (-4053 / 172))] := by
  simp [tradingPeriod, before_trading_start, ex4_pipe, fillna1, replaceInf1]

/-- Claim C1: for every security in the pipeline output, the composite
score equals the winsorized sentiment ratio multiplied by the return
z-score multiplied by the trend ratio. -/
theorem C1_composite_is_product (inp : Inputs) (s : ℕ) (v : PFloat)
    (hv : (s, v) ∈ pipelineOutput inp) :
    v = PFloat.mul
        (PFloat.mul (sentiment_score_winsorized inp s) (recent_returns_zscore inp s))
        (mean_average_multiplier inp s) := by
  simp only [pipelineOutput, List.mem_map] at hv
  obtain ⟨a, ha, h⟩ := hv
  injection h with h1 h2
  subst h1
  exact h2.symm

/-- Witness for claim C1 at the first example. -/
theorem C1_composite_is_product_witness :
    ((3, PFloat.fin (-9457 / 430)) ∈ pipelineOutput EX3)
    ∧ PFloat.fin (-9457 / 430) = PFloat.mul
        (PFloat.mul (sentiment_score_winsorized EX3 3) (recent_returns_zscore EX3 3))
        (mean_average_multiplier EX3 3) :=
  ⟨by simp [ex3_pipe],
    C1_composite_is_product EX3 3 (PFloat.fin (-9457 / 430)) (by simp [ex3_pipe])⟩

/-- Claim C2: the eligibility screen keeps exactly the securities of the
universe whose return z-score lies in the percentile band from zero to
twenty five or in the band from seventy five to one hundred, the pipeline
output contains no security outside those bands, and on the spec scenario
with four z-scores minus two, minus one half, one half and two, exactly
the first and last securities are kept. -/
theorem C2_eligibility_bands :
    (∀ (inp : Inputs) (s : ℕ) (v : PFloat), (s, v) ∈ pipelineOutput inp →
        (percentileBetween (recent_returns_zscore inp) inp.univ 0 25 s = true
          ∨ percentileBetween (recent_returns_zscore inp) inp.univ 75 100 s = true))
    ∧ (∀ (inp : Inputs) (s : ℕ),
        securities_to_trade inp s = true ↔
          (s ∈ inp.univ
            ∧ (percentileBetween (recent_returns_zscore inp) inp.univ 0 25 s = true
              ∨ percentileBetween (recent_returns_zscore inp) inp.univ 75 100 s = true)))
    ∧ (univ4.filter (fun s =>
          (percentileBetween zScenario univ4 0 25 s
            || percentileBetween zScenario univ4 75 100 s) && univ4.contains s) = [0, 3]) := by
  have hiff : ∀ (inp : Inputs) (s : ℕ),
      securities_to_trade inp s = true ↔
        (s ∈ inp.univ
          ∧ (percentileBetween (recent_returns_zscore inp) inp.univ 0 25 s = true
            ∨ percentileBetween (recent_returns_zscore inp) inp.univ 75 100 s = true)) := by
    intro inp s
    simp only [securities_to_trade, low_returns, high_returns, Bool.and_eq_true,
      Bool.or_eq_true, List.elem_iff]
    tauto
  refine ⟨?_, hiff, by with_unfolding_all decide⟩
  intro inp s v hv
  simp only [pipelineOutput, List.mem_map] at hv
  obtain ⟨a, ha, h⟩ := hv
  injection h with h1 h2
  subst h1
  exact ((hiff inp a).mp (List.mem_filter.mp ha).2).2

/-- Witness for claim C2 at the first example. -/
theorem C2_eligibility_bands_witness :
    ((0, PFloat.nan) ∈ pipelineOutput EX3)
    ∧ (percentileBetween (recent_returns_zscore EX3) EX3.univ 0 25 0 = true
        ∨ percentileBetween (recent_returns_zscore EX3) EX3.univ 75 100 0 = true) :=
  ⟨by simp [ex3_pipe], C2_eligibility_bands.1 EX3 0 PFloat.nan (by simp [ex3_pipe])⟩

/-- Counterexample to claim C3: in the first example, security zero has a
missing bull minus bear factor; its staged composite score is one, while
the product of its remaining factors, the return z-score times the trend
ratio, is four hundred eighty three over three hundred eighty, a
different value.  The substitution with one happens on the final staged
score, not before the sentiment, eligibility and composite steps. -/
theorem C3_counterexample :
    bull_m_bear EX3 0 = PFloat.nan
    ∧ ((0, PFloat.fin 1) ∈ (tradingPeriod ctx0 EX3).total_score)
    ∧ PFloat.mul (recent_returns_zscore EX3 0) (mean_average_multiplier EX3 0)
        = PFloat.fin (483 / 380)
    ∧ PFloat.fin (1 : ℚ) ≠ PFloat.fin (483 / 380 : ℚ) := by
  refine ⟨ex3_bmb0, by simp [ex3_staged], ?_, ?_⟩
  · rw [ex3_zs0, ex3_tr0]
    show PFloat.fin (7 / 5 * (69 / 76)) = PFloat.fin (483 / 380)
    norm_num
  · intro h
    injection h with h
    norm_num at h

/-- Claim C3 amended: a security with a missing raw factor propagates
not-a-number through the factor pipeline, so whenever it appears in the
staged mapping its staged composite score is exactly one, substituted by
the fillna step of the before-open hook after the pipeline ran, not the
product of the remaining factors. -/
theorem C3_missing_factor_scores_one (ctx : Context) (inp : Inputs) (s : ℕ) (v : PFloat)
    (hmiss : bull_m_bear inp s = PFloat.nan ∨ total_messages inp s = PFloat.nan
      ∨ mean_close_50 inp s = PFloat.nan ∨ mean_close_200 inp s = PFloat.nan
      ∨ recent_returns inp s = PFloat.nan)
    (hv : (s, v) ∈ (tradingPeriod ctx inp).total_score) :
    v = PFloat.fin 1 := by
  have htot : total_score inp s = PFloat.nan := by
    rcases hmiss with h | h | h | h | h
    · have hsent : sentiment_score inp s = PFloat.nan := by
        rw [sentiment_score, h]; exact PFloat.div_nan _
      have hw : sentiment_score_winsorized inp s = PFloat.nan :=
        winsorizeCol_nan _ _ _ _ _ hsent
      rw [total_score, hw, PFloat.nan_mul, PFloat.nan_mul]
    · have hsent : sentiment_score inp s = PFloat.nan := by
        rw [sentiment_score, h]; exact PFloat.nan_div _
      have hw : sentiment_score_winsorized inp s = PFloat.nan :=
        winsorizeCol_nan _ _ _ _ _ hsent
      rw [total_score, hw, PFloat.nan_mul, PFloat.nan_mul]
    · have hm : mean_average_multiplier inp s = PFloat.nan := by
        rw [mean_average_multiplier, h]; exact PFloat.div_nan _
      rw [total_score, hm, PFloat.mul_nan]
    · have hm : mean_average_multiplier inp s = PFloat.nan := by
        rw [mean_average_multiplier, h]; exact PFloat.nan_div _
      rw [total_score, hm, PFloat.mul_nan]
    · have hz : recent_returns_zscore inp s = PFloat.nan := zscoreCol_nan _ _ _ h
      rw [total_score, hz, PFloat.mul_nan, PFloat.nan_mul]
  rw [staged_mem ctx inp s v hv, htot]
  rfl

/-- Witness for the amended claim C3 at the first example. -/
theorem C3_missing_factor_scores_one_witness :
    (bull_m_bear EX3 0 = PFloat.nan ∨ total_messages EX3 0 = PFloat.nan
      ∨ mean_close_50 EX3 0 = PFloat.nan ∨ mean_close_200 EX3 0 = PFloat.nan
      ∨ recent_returns EX3 0 = PFloat.nan)
    ∧ ((0, PFloat.fin 1) ∈ (tradingPeriod ctx0 EX3).total_score)
    ∧ (PFloat.fin 1 : PFloat) = PFloat.fin 1 :=
  ⟨Or.inl ex3_bmb0, by simp [ex3_staged],
    C3_missing_factor_scores_one ctx0 EX3 0 (PFloat.fin 1) (Or.inl ex3_bmb0)
      (by simp [ex3_staged])⟩

/-- Counterexample to claim C4: in the second example, security zero has
a bull minus bear average of exactly zero; the sentiment ratio used in
further computation is plus infinity, not one.  The coercion to one
applies instead to the final staged composite score. -/
theorem C4_counterexample :
    bull_m_bear EX4 0 = PFloat.fin 0
    ∧ sentiment_score_winsorized EX4 0 = PFloat.pinf
    ∧ sentiment_score_winsorized EX4 0 ≠ PFloat.fin 1
    ∧ ((0, PFloat.fin 1) ∈ (tradingPeriod ctx0 EX4).total_score)
    ∧ PFloat.fin (1 : ℚ) ≠ PFloat.mul
        (PFloat.mul (PFloat.fin 1) (recent_returns_zscore EX4 0))
        (mean_average_multiplier EX4 0) := by
  refine ⟨ex4_bmb0, ex4_ws0, by rw [ex4_ws0]; intro h; exact PFloat.noConfusion h,
    by simp [ex4_staged], ?_⟩
  rw [ex4_zs0, ex4_tr0]
  show PFloat.fin (1 : ℚ) ≠ PFloat.fin (1 * (7 / 5) * (69 / 76))
  intro h
  injection h with h
  norm_num at h

/-- Claim C4 amended: when the bull minus bear average of a security is
exactly zero, its sentiment ratio is an infinity or not-a-number, never
one; the staged composite score of such a security is nevertheless always
finite, and equals one whenever the composite score itself came out
infinite or not-a-number. -/
theorem C4_zero_sentiment_coerced (ctx : Context) (inp : Inputs) (s : ℕ) (v : PFloat)
    (hz : bull_m_bear inp s = PFloat.fin 0)
    (hv : (s, v) ∈ (tradingPeriod ctx inp).total_score) :
    (sentiment_score inp s = PFloat.pinf ∨ sentiment_score inp s = PFloat.ninf
      ∨ sentiment_score inp s = PFloat.nan)
    ∧ (∃ q : ℚ, v = PFloat.fin q)
    ∧ ((total_score inp s = PFloat.pinf ∨ total_score inp s = PFloat.ninf
        ∨ total_score inp s = PFloat.nan) → v = PFloat.fin 1) := by
  have hm := staged_mem ctx inp s v hv
  refine ⟨?_, ?_, ?_⟩
  · rw [sentiment_score, hz]
    exact PFloat.div_fin_zero _
  · obtain ⟨q, hq⟩ := replace_fill_fin (total_score inp s)
    exact ⟨q, hm.trans hq⟩
  · intro h
    rcases h with h | h | h <;> rw [hm, h] <;> rfl

/-- Witness for the amended claim C4 at the second example. -/
theorem C4_zero_sentiment_coerced_witness :
    (bull_m_bear EX4 0 = PFloat.fin 0)
    ∧ ((0, PFloat.fin 1) ∈ (tradingPeriod ctx0 EX4).total_score)
    ∧ ((sentiment_score EX4 0 = PFloat.pinf ∨ sentiment_score EX4 0 = PFloat.ninf
        ∨ sentiment_score EX4 0 = PFloat.nan)
      ∧ (∃ q : ℚ, PFloat.fin 1 = PFloat.fin q)
      ∧ ((total_score EX4 0 = PFloat.pinf ∨ total_score EX4 0 = PFloat.ninf
          ∨ total_score EX4 0 = PFloat.nan) → PFloat.fin 1 = PFloat.fin 1)) :=
  ⟨ex4_bmb0, by simp [ex4_staged],
    C4_zero_sentiment_coerced ctx0 EX4 0 (PFloat.fin 1) ex4_bmb0 (by simp [ex4_staged])⟩

/-- Claim C5: the rebalance hook builds exactly three constraints with the
configured constants, and a weight mapping satisfies them all exactly when
its gross exposure is at most one, every weight lies between minus one
fortieth and one fortieth, and the long exposure equals the short
exposure. -/
theorem C5_three_constraints (ctx : Context) :
    (rebalance ctx).constraints =
      [Constraint.maxGrossExposure 1,
        Constraint.positionConcentration (-(1 / 40)) (1 / 40),
        Constraint.dollarNeutral]
    ∧ ∀ (w : ℕ → ℚ) (secs : List ℕ),
        ((∀ c ∈ (rebalance ctx).constraints, Constraint.sat w secs c) ↔
          (grossExposure w secs ≤ 1
            ∧ (∀ s ∈ secs, -(1 / 40) ≤ w s ∧ w s ≤ 1 / 40)
            ∧ longExposure w secs = shortExposure w secs)) := by
  refine ⟨rfl, fun w secs => ?_⟩
  simp [rebalance, Constraint.sat, MAX_GROSS_EXPOSURE, MAX_POSITION_CONCENTRATION,
    and_assoc]

/-- Witness for claim C5 at the empty context. -/
theorem C5_three_constraints_witness :
    (rebalance ctx0).constraints =
      [Constraint.maxGrossExposure 1,
        Constraint.positionConcentration (-(1 / 40)) (1 / 40),
        Constraint.dollarNeutral] :=
  (C5_three_constraints ctx0).1

/-- Claim C6: the submitted objective is MaximizeAlpha of the pointwise
negated staged scores, so its value at any weight mapping is the sum over
positions of the weight times the negated composite score. -/
theorem C6_objective_negates_scores (ctx : Context) :
    (rebalance ctx).objective =
      Objective.maximizeAlpha (ctx.total_score.map (fun p => (p.1, PFloat.neg p.2)))
    ∧ ∀ (w : ℕ → ℚ),
        Objective.value (rebalance ctx).objective w =
          pfsum (ctx.total_score.map
            (fun p => PFloat.mul (PFloat.fin (w p.1)) (PFloat.neg p.2))) := by
  refine ⟨rfl, fun w => ?_⟩
  simp only [rebalance, Objective.value, List.map_map]
  rfl

/-- Witness for claim C6 at a one-entry staged mapping. -/
theorem C6_objective_negates_scores_witness :
    (rebalance { output := [], total_score := [(2, PFloat.fin 3)] }).objective =
      Objective.maximizeAlpha
        ([(2, PFloat.fin 3)].map (fun p => (p.1, PFloat.neg p.2))) :=
  (C6_objective_negates_scores { output := [], total_score := [(2, PFloat.fin 3)] }).1

/-- Claim C7: for every security of the universe the sentiment ratio is
the lookback-window average of the total scanned message count divided by
the lookback-window average of the bull minus bear sentiment, the window
averages are the window sums divided by the window length when enough
data is present, and the winsorized sentiment ratio clips that ratio at
the first and the ninety fifth percentile values of the distribution over
the universe. -/
theorem C7_sentiment_ratio_winsorized (inp : Inputs) (s : ℕ) (hs : s ∈ inp.univ) :
    (sentiment_score inp s =
      PFloat.div (sma RETURNS_LOOKBACK_DAYS (inp.data s).total_scanned_messages)
        (sma RETURNS_LOOKBACK_DAYS (inp.data s).bull_minus_bear))
    ∧ (RETURNS_LOOKBACK_DAYS ≤ (inp.data s).total_scanned_messages.length →
        total_messages inp s =
          PFloat.div (pfsum ((inp.data s).total_scanned_messages.take RETURNS_LOOKBACK_DAYS))
            (PFloat.fin (RETURNS_LOOKBACK_DAYS : ℚ)))
    ∧ (RETURNS_LOOKBACK_DAYS ≤ (inp.data s).bull_minus_bear.length →
        bull_m_bear inp s =
          PFloat.div (pfsum ((inp.data s).bull_minus_bear.take RETURNS_LOOKBACK_DAYS))
            (PFloat.fin (RETURNS_LOOKBACK_DAYS : ℚ)))
    ∧ (sentiment_score_winsorized inp s =
        (if PFloat.ltb (sentiment_score inp s)
            (percLin (sortPF (nonNanVals (sentiment_score inp) inp.univ)) (1 / 100)) then
          percLin (sortPF (nonNanVals (sentiment_score inp) inp.univ)) (1 / 100)
        else if PFloat.ltb
            (percLin (sortPF (nonNanVals (sentiment_score inp) inp.univ)) (95 / 100))
            (sentiment_score inp s) then
          percLin (sortPF (nonNanVals (sentiment_score inp) inp.univ)) (95 / 100)
        else sentiment_score inp s)) := by
  refine ⟨rfl, fun h => ?_, fun h => ?_, rfl⟩
  · unfold total_messages sma
    rw [if_neg (Nat.not_lt.mpr h)]
  · unfold bull_m_bear sma
    rw [if_neg (Nat.not_lt.mpr h)]

/-- Witness for claim C7 at the first example. -/
theorem C7_sentiment_ratio_winsorized_witness :
    (1 ∈ EX3.univ)
    ∧ ((sentiment_score EX3 1 =
        PFloat.div (sma RETURNS_LOOKBACK_DAYS (EX3.data 1).total_scanned_messages)
          (sma RETURNS_LOOKBACK_DAYS (EX3.data 1).bull_minus_bear))
      ∧ (RETURNS_LOOKBACK_DAYS ≤ (EX3.data 1).total_scanned_messages.length →
          total_messages EX3 1 =
            PFloat.div (pfsum ((EX3.data 1).total_scanned_messages.take RETURNS_LOOKBACK_DAYS))
              (PFloat.fin (RETURNS_LOOKBACK_DAYS : ℚ)))
      ∧ (RETURNS_LOOKBACK_DAYS ≤ (EX3.data 1).bull_minus_bear.length →
          bull_m_bear EX3 1 =
            PFloat.div (pfsum ((EX3.data 1).bull_minus_bear.take RETURNS_LOOKBACK_DAYS))
              (PFloat.fin (RETURNS_LOOKBACK_DAYS : ℚ)))
      ∧ (sentiment_score_winsorized EX3 1 =
          (if PFloat.ltb (sentiment_score EX3 1)
              (percLin (sortPF (nonNanVals (sentiment_score EX3) EX3.univ)) (1 / 100)) then
            percLin (sortPF (nonNanVals (sentiment_score EX3) EX3.univ)) (1 / 100)
          else if PFloat.ltb
              (percLin (sortPF (nonNanVals (sentiment_score EX3) EX3.univ)) (95 / 100))
              (sentiment_score EX3 1) then
            percLin (sortPF (nonNanVals (sentiment_score EX3) EX3.univ)) (95 / 100)
          else sentiment_score EX3 1))) :=
  ⟨by simp [EX3_univ], C7_sentiment_ratio_winsorized EX3 1 (by simp [EX3_univ])⟩

/-- Claim C8: the trend ratio is the two hundred period simple moving
average of the close price divided by the fifty period simple moving
average of the close price, the long average in the numerator. -/
theorem C8_trend_ratio (inp : Inputs) (s : ℕ) (h : 200 ≤ (inp.data s).close.length) :
    mean_average_multiplier inp s =
      PFloat.div
        (PFloat.div (pfsum ((inp.data s).close.take 200)) (PFloat.fin ((200 : ℕ) : ℚ)))
        (PFloat.div (pfsum ((inp.data s).close.take 50)) (PFloat.fin ((50 : ℕ) : ℚ))) := by
  have h50 : ¬((inp.data s).close.length < 50) := by omega
  have h200 : ¬((inp.data s).close.length < 200) := by omega
  unfold mean_average_multiplier mean_close_200 mean_close_50 sma
  rw [if_neg h200, if_neg h50]

/-- Witness for claim C8 at the first example. -/
theorem C8_trend_ratio_witness :
    (200 ≤ (EX3.data 1).close.length)
    ∧ mean_average_multiplier EX3 1 =
      PFloat.div
        (PFloat.div (pfsum ((EX3.data 1).close.take 200)) (PFloat.fin ((200 : ℕ) : ℚ)))
        (PFloat.div (pfsum ((EX3.data 1).close.take 50)) (PFloat.fin ((50 : ℕ) : ℚ))) :=
  ⟨by with_unfolding_all decide, C8_trend_ratio EX3 1 (by with_unfolding_all decide)⟩

/-- Claim C9: one trading period stages a composite score mapping that
depends only on the pipeline inputs, never on the previous context, so
two runs on identical raw factor inputs stage identical mappings. -/
theorem C9_composer_deterministic (c1 c2 : Context) (inp : Inputs) :
    (tradingPeriod c1 inp).total_score = (tradingPeriod c2 inp).total_score := rfl

/-- Witness for claim C9 at two different starting contexts. -/
theorem C9_composer_deterministic_witness :
    (tradingPeriod ctx0 EX3).total_score =
      (tradingPeriod { output := [(9, PFloat.pinf)], total_score := [(9, PFloat.pinf)] }
        EX3).total_score :=
  C9_composer_deterministic ctx0
    { output := [(9, PFloat.pinf)], total_score := [(9, PFloat.pinf)] } EX3

/-- Claim C10: the before-open hook stages the pipeline output with the
fillna substitution applied first and the infinity replacement applied
second, and every staged value is a finite number. -/
theorem C10_staged_finite (ctx : Context) (pipeOut : List (ℕ × PFloat)) :
    ((before_trading_start ctx pipeOut).total_score =
      pipeOut.map (fun p => (p.1, replaceInf1 (fillna1 p.2))))
    ∧ ∀ (s : ℕ) (v : PFloat),
        (s, v) ∈ (before_trading_start ctx pipeOut).total_score → ∃ q : ℚ, v = PFloat.fin q := by
  constructor
  · simp [before_trading_start, List.map_map, Function.comp]
  · intro s v hv
    simp only [before_trading_start, List.map_map, Function.comp, List.mem_map] at hv
    obtain ⟨p, hp, h⟩ := hv
    injection h with h1 h2
    obtain ⟨q, hq⟩ := replace_fill_fin p.2
    exact ⟨q, by rw [← h2]; exact hq⟩

/-- Witness for claim C10 at a one-entry pipeline output holding a
not-a-number score. -/
theorem C10_staged_finite_witness :
    ((0, PFloat.fin 1) ∈ (before_trading_start ctx0 [(0, PFloat.nan)]).total_score)
    ∧ ∃ q : ℚ, PFloat.fin 1 = PFloat.fin q :=
  ⟨by simp [before_trading_start, fillna1, replaceInf1],
    (C10_staged_finite ctx0 [(0, PFloat.nan)]).2 0 (PFloat.fin 1)
      (by simp [before_trading_start, fillna1, replaceInf1])⟩
